import Mathlib

/-!
Verification model of the daphne Aggregator protocol state machine.

The repository's crates under verification expose only their end-to-end test
suite (`daphne_worker_test/tests/e2e.rs`) and the metrics module in source
form; the core state machine (report ingestion, batch-bucket accounting,
aggregation scheduler, collection-job manager, taskprov resolver) is modelled
here from the design specification, with the e2e tests fixing concrete
behaviour (error codes, HTTP statuses, boundary conditions) wherever they pin
it down.

The model is a shallow embedding: a single task's durable state is an explicit
`State` record, every operation of the §4 contracts is a pure function on it,
and machine integers are `Nat` (no arithmetic in the claims overflows).
-/

namespace Daphne

/-- Modelled from the spec (§3): the task's batch query type, TimeInterval or
FixedSize. -/
inductive QueryType where
  | timeInterval
  | fixedSize
deriving DecidableEq

/-- Modelled from the spec (§3): the task configuration fields the core state
machine reads (query type, time precision, minimum batch size, expiration).
Fields not read by any modelled operation (role, collector key, max query
count) are omitted. -/
structure TaskCfg where
  queryType : QueryType
  timePrecision : Nat
  minBatchSize : Nat
  expiration : Nat
deriving DecidableEq

/-- Modelled from the spec (§4.4a): the deployment-wide configuration; only the
maximum batch duration is read by the modelled operations. -/
structure GlobalCfg where
  maxBatchDuration : Nat
deriving DecidableEq

/-- Modelled from the spec (§3): a client report as seen after wire decoding
(the binary codec is an out-of-scope collaborator). `extensions` holds the
payloads of the report's taskprov extensions; `leaderHpkeId` is the HPKE config
id tagging the Leader's encrypted input share. -/
structure Report where
  id : Nat
  time : Nat
  leaderHpkeId : Nat
  extensions : List (List Nat)
deriving DecidableEq

/-- Modelled from the spec (§4.1/§4.2): an accepted report as stored for later
aggregation, together with the batch-bucket key it was assigned at ingestion
(quantized time slice for TimeInterval tasks, batch id for FixedSize tasks). -/
structure PendingReport where
  id : Nat
  time : Nat
  bucket : Nat
deriving DecidableEq

/-- Modelled from the spec (§4.2): per-batch accounting for a fixed-size task:
the opaque batch id, the number of reports assigned, and the collected flag. -/
structure Batch where
  id : Nat
  size : Nat
  collected : Bool
deriving DecidableEq

/-- Modelled from the spec (§3): a collect query selector, discriminated by
query type. -/
inductive Query where
  | timeInterval (start : Nat) (duration : Nat)
  | fixedSizeByBatchId (batchId : Nat)
  | fixedSizeCurrentBatch
deriving DecidableEq

/-- Modelled from the spec (§3/§6): a decoded collect request: selector plus
the opaque aggregation parameter. Equality of `CollectReq` values stands for
byte-equality of the encoded requests (the wire codec is injective). -/
structure CollectReq where
  query : Query
  aggParam : List Nat
deriving DecidableEq

/-- Modelled from the spec (§4.4): the cached result payload of a Complete
collection job: total report count and the resolved bucket set it covers (the
encrypted aggregate shares themselves are produced by the out-of-scope VDAF
and HPKE collaborators). -/
structure JobResult where
  reportCount : Nat
  buckets : List Nat
deriving DecidableEq

/-- Modelled from the spec (§4.4): the collection-job state machine,
`Pending → Complete` with `Complete` terminal and its result immutable. -/
inductive JobState where
  | pending
  | complete (result : JobResult)
deriving DecidableEq

/-- Modelled from the spec (§3/§4.4): a collection job records the request it
deduplicates on, the bucket set it resolved to at submission time, and its
state. -/
structure Job where
  req : CollectReq
  buckets : List Nat
  state : JobState
deriving DecidableEq

/-- Modelled from the spec (§3 Ownership, §5): the durable state of one task:
the anti-replay Report Ledger, the pending (accepted, unaggregated) reports,
the aggregated reports, the fixed-size batch table with its id counter, and
the collection-job table keyed by job handle with its handle counter. -/
structure State where
  ledger : List Nat
  pending : List PendingReport
  aggregated : List PendingReport
  batches : List Batch
  nextBatchId : Nat
  jobs : List (Nat × Job)
  nextHandle : Nat
deriving DecidableEq

/-- The empty per-task state: nothing ingested, no batches, no jobs. -/
def initState : State :=
  { ledger := [], pending := [], aggregated := [], batches := [],
    nextBatchId := 0, jobs := [], nextHandle := 0 }

/-- Modelled from the spec (§4.1/§6): the upload rejection codes. -/
inductive UploadError where
  | reportRejected
  | unrecognizedTask
  | unrecognizedMessage
  | reportTooLate
  | invalidTask
deriving DecidableEq

/-- Modelled from the spec (§6): the stable machine-readable code of each
upload rejection, as it appears in the HTTP problem document. -/
def uploadErrorCode : UploadError → String
  | .reportRejected => "reportRejected"
  | .unrecognizedTask => "unrecognizedTask"
  | .unrecognizedMessage => "unrecognizedMessage"
  | .reportTooLate => "reportTooLate"
  | .invalidTask => "invalidTask"

/-- Modelled from the spec (§6): every upload rejection is surfaced as an
HTTP 400. -/
def uploadHttpStatus : UploadError → Nat := fun _ => 400

/-- Modelled from the spec (§4.4/§6): the collect rejection codes. -/
inductive CollectError where
  | batchInvalid
  | batchOverlap
  | unrecognizedCollectJob
deriving DecidableEq

/-- Modelled from the spec (§6): the stable machine-readable code of each
collect rejection. -/
def collectErrorCode : CollectError → String
  | .batchInvalid => "batchInvalid"
  | .batchOverlap => "batchOverlap"
  | .unrecognizedCollectJob => "unrecognizedCollectJob"

/-- Modelled from the spec (§4.5): `compute_task_id` is the deterministic,
collision-resistant hash of the canonical encoding of the taskprov payload.
The hash itself is an out-of-scope collaborator; it is modelled as the
injective content-addressing map (a task id IS the payload content), which
preserves exactly the properties the spec states: determinism and distinct
ids for distinct payloads. -/
def computeTaskId (payload : List Nat) : List Nat := payload

/-- Modelled from the spec (§4.5): decoding a taskprov payload into a task
configuration. The payload's field encoding is the out-of-scope wire codec;
the model maps every payload to a fixed ephemeral configuration, which no
claim inspects (C8 stops at the id-mismatch rejection, before the
configuration is used). -/
def taskprovConfig (payload : List Nat) : TaskCfg :=
  { queryType := .fixedSize, timePrecision := 1,
    minBatchSize := 1, expiration := 1 + payload.length + 18446744073709551615 }

/-- Modelled from the spec (§2/§4.1): the upload-side environment: the
registered-task directory (Task Directory) and the set of HPKE config ids the
Aggregator can decrypt with. -/
structure UploadEnv where
  registered : List (List Nat × TaskCfg)
  hpkeIds : List Nat
deriving DecidableEq

/-- Modelled from the spec (§4.1a/§4.5): resolve the upload path's task id,
directly from the Task Directory or on the fly from the report's taskprov
extension. An unregistered id with no taskprov extension, or a taskprov id
that does not re-derive from the embedded payload, is `unrecognizedTask`;
more than one taskprov extension is `unrecognizedMessage` (as pinned by
`e2e_leader_upload_taskprov`). -/
def resolveTask (env : UploadEnv) (pathTaskId : List Nat)
    (exts : List (List Nat)) : Except UploadError TaskCfg :=
  match env.registered.find? (fun p => decide (p.1 = pathTaskId)) with
  | some p => .ok p.2
  | none =>
    match exts with
    | [payload] =>
      if computeTaskId payload = pathTaskId then .ok (taskprovConfig payload)
      else .error .unrecognizedTask
    | [] => .error .unrecognizedTask
    | _ => .error .unrecognizedMessage

/-- Append one report to the last (open) fixed-size batch. -/
def bumpLast : List Batch → List Batch
  | [] => []
  | [b] => [{ b with size := b.size + 1 }]
  | b :: bs => b :: bumpLast bs

/-- Modelled from the spec (§4.2): open a fresh fixed-size batch with a
freshly generated id and assign the report to it. -/
def newBatchIngest (s : State) (r : Report) : State :=
  { s with ledger := r.id :: s.ledger,
           pending := s.pending ++ [⟨r.id, r.time, s.nextBatchId⟩],
           batches := s.batches ++ [⟨s.nextBatchId, 1, false⟩],
           nextBatchId := s.nextBatchId + 1 }

/-- Modelled from the spec (§4.1/§4.2): record an accepted report: add its id
to the Report Ledger and assign it a bucket. TimeInterval tasks use the
quantized slice `time / timePrecision`; FixedSize tasks fill the newest batch
until it is collected or reaches the minimum batch size, then open a fresh
batch. -/
def ingest (c : TaskCfg) (s : State) (r : Report) : State :=
  match c.queryType with
  | .timeInterval =>
    { s with ledger := r.id :: s.ledger,
             pending := s.pending ++ [⟨r.id, r.time, r.time / c.timePrecision⟩] }
  | .fixedSize =>
    match s.batches.getLast? with
    | some bt =>
      if bt.collected = false ∧ bt.size < c.minBatchSize then
        { s with ledger := r.id :: s.ledger,
                 pending := s.pending ++ [⟨r.id, r.time, bt.id⟩],
                 batches := bumpLast s.batches }
      else newBatchIngest s r
    | none => newBatchIngest s r

/-- Modelled from the spec (§4.1): `submit(task_id, report)`. Validation in
order, first failure wins: (a) task resolvable (directly or via taskprov) —
else `unrecognizedTask`/`unrecognizedMessage`; (d) staleness — the e2e test
(`e2e_leader_upload`) pins that a report timestamped exactly at the task
expiration is rejected, so the check is `expiration ≤ time` → `reportTooLate`;
then the Leader share's HPKE config id must be known — else `reportRejected`
(pinned by `e2e_leader_upload`); (e) report id not already in the Report
Ledger — else `reportRejected`. On success the report is recorded and
assigned a bucket. (Check (b), wire well-formedness, lives in the
out-of-scope codec: a decoded `Report` value is well-formed by construction.) -/
def upload (env : UploadEnv) (s : State) (pathTaskId : List Nat)
    (r : Report) : Except UploadError State :=
  match resolveTask env pathTaskId r.extensions with
  | .error e => .error e
  | .ok c =>
    if c.expiration ≤ r.time then .error .reportTooLate
    else if r.leaderHpkeId ∈ env.hpkeIds then
      if r.id ∈ s.ledger then .error .reportRejected
      else .ok (ingest c s r)
    else .error .reportRejected

/-- Modelled from the spec (§4.2): `current_batch(task_id)` returns the oldest
fixed-size batch not yet collected; when every existing batch is collected it
returns the id the next opened batch will get. -/
def currentBatch (s : State) : Nat :=
  match s.batches.find? (fun bt => decide (bt.collected = false)) with
  | some bt => bt.id
  | none => s.nextBatchId

/-- Modelled from the spec (§4.3): the per-invocation rate limits of the
aggregation scheduler. -/
structure Limits where
  maxJobs : Nat
  maxReports : Nat
deriving DecidableEq

/-- Modelled from the spec (§4.3/§6): the telemetry returned by one
`process` invocation. -/
structure Telemetry where
  reports_processed : Nat
  reports_aggregated : Nat
  reports_collected : Nat
deriving DecidableEq

/-- Modelled from the spec (§4.3): the aggregation step of one `process`
invocation: up to `maxJobs` aggregation jobs, each draining up to
`maxReports` unaggregated reports of a single bucket, oldest-first. Returns
(reports drained this invocation, reports still pending). -/
def aggStep : Nat → Nat → List PendingReport → List PendingReport × List PendingReport
  | 0, _, pnd => ([], pnd)
  | _ + 1, _, [] => ([], [])
  | fuel + 1, maxR, r :: rs =>
    let inBucket := r :: rs.filter (fun x => decide (x.bucket = r.bucket))
    let taken := inBucket.take maxR
    let rest := (r :: rs).filter (fun x => decide (x ∉ taken))
    let next := aggStep fuel maxR rest
    (taken ++ next.1, next.2)

/-- Number of aggregated reports lying in a given bucket set. -/
def jobCount (aggregated : List PendingReport) (buckets : List Nat) : Nat :=
  (aggregated.filter (fun r => decide (r.bucket ∈ buckets))).length

/-- Modelled from the spec (§2/§4.4): a pending collection job is ready once
its constituent buckets are fully aggregated (no pending report remains in
them) and the aggregated reports they hold meet the task's minimum batch
size. -/
def jobReady (minBatchSize : Nat) (pnd aggregated : List PendingReport)
    (j : Job) : Prop :=
  (∀ r ∈ pnd, r.bucket ∉ j.buckets) ∧ minBatchSize ≤ jobCount aggregated j.buckets

instance (minBatchSize : Nat) (pnd aggregated : List PendingReport) (j : Job) :
    Decidable (jobReady minBatchSize pnd aggregated j) := by
  unfold jobReady; infer_instance

/-- Output of the collection step of one `process` invocation: the updated
job table, the number of reports newly collected, and the buckets newly
marked collected. -/
structure CJOut where
  jobs : List (Nat × Job)
  collected : Nat
  buckets : List Nat
deriving DecidableEq

/-- Modelled from the spec (§4.3/§4.4): the collection step of one `process`
invocation: every pending job whose readiness condition now holds transitions
to Complete, computing and caching its result once; its buckets are reported
for marking collected and its report count feeds `reports_collected`.
Complete jobs are untouched. -/
def completeJobs (minBatchSize : Nat) (pnd aggregated : List PendingReport) :
    List (Nat × Job) → CJOut
  | [] => ⟨[], 0, []⟩
  | (h, j) :: tl =>
    let o := completeJobs minBatchSize pnd aggregated tl
    match j.state with
    | .complete _ => ⟨(h, j) :: o.jobs, o.collected, o.buckets⟩
    | .pending =>
      if jobReady minBatchSize pnd aggregated j then
        let cnt := jobCount aggregated j.buckets
        ⟨(h, { j with state := .complete ⟨cnt, j.buckets⟩ }) :: o.jobs,
         o.collected + cnt, o.buckets ++ j.buckets⟩
      else ⟨(h, j) :: o.jobs, o.collected, o.buckets⟩

/-- Modelled from the spec (§4.3): `process(task_id, limits)`: drain pending
reports into aggregation jobs under the rate limits, then complete every
collection job that became eligible, and return the telemetry. The scheduler
reads nothing of the task configuration but its minimum batch size; in
particular the task expiration is never re-checked here (§4.1, §9). -/
def process (c : TaskCfg) (lim : Limits) (s : State) : State × Telemetry :=
  let A := aggStep lim.maxJobs lim.maxReports s.pending
  let agg := s.aggregated ++ A.1
  let O := completeJobs c.minBatchSize A.2 agg s.jobs
  ({ s with pending := A.2, aggregated := agg, jobs := O.jobs,
            batches := s.batches.map
              (fun bt => if bt.id ∈ O.buckets then { bt with collected := true } else bt) },
   ⟨A.1.length, A.1.length, O.collected⟩)

/-- Iterate `process`, discarding telemetry (re-invocation by an external
trigger, §5). -/
def processIter (c : TaskCfg) (lim : Limits) : Nat → State → State
  | 0, s => s
  | n + 1, s => processIter c lim n (process c lim s).1

/-- Modelled from the spec (§4.4a): collect request validation performed
before any bucket is inspected: for TimeInterval, start and duration must be
multiples of the task's time precision and the duration must not exceed the
configured maximum batch duration — else `batchInvalid`. -/
def validateQuery (c : TaskCfg) (g : GlobalCfg) : Query → Option CollectError
  | .timeInterval start duration =>
    if start % c.timePrecision = 0 ∧ duration % c.timePrecision = 0 then
      if g.maxBatchDuration < duration then some .batchInvalid else none
    else some .batchInvalid
  | _ => none

/-- Modelled from the spec (§4.4): resolve a collect query to its bucket set:
the quantized slices covered by a time interval, the referenced fixed-size
batch id, or — at submission time — the current (oldest uncollected) batch. -/
def resolveBuckets (c : TaskCfg) (s : State) : Query → List Nat
  | .timeInterval start duration =>
    (List.range (duration / c.timePrecision)).map (fun i => start / c.timePrecision + i)
  | .fixedSizeByBatchId b => [b]
  | .fixedSizeCurrentBatch => [currentBatch s]

/-- Modelled from the spec (§4.4c): a FixedSizeByBatchId query must reference
a batch that exists and has not already been collected — else
`batchOverlap`. -/
def badBatchRef (s : State) : Query → Bool
  | .fixedSizeByBatchId b =>
    match s.batches.find? (fun bt => decide (bt.id = b)) with
    | some bt => bt.collected
    | none => true
  | _ => false

/-- Modelled from the spec (§4.4): `submit(task_id, request)` of the
Collection Job Manager. Validation order: (a) query validation
(`batchInvalid`), then the byte-identical-resubmission exception (return the
existing job's handle unchanged), then (b) the resolved bucket set must not
overlap any bucket referenced by a prior Pending or Complete job — else
`batchOverlap` — and (c) a FixedSizeByBatchId reference must be an existing
uncollected batch — else `batchOverlap`. A valid new request creates a
Pending job under a fresh handle, recording its resolved bucket set. -/
def submitCollect (c : TaskCfg) (g : GlobalCfg) (s : State)
    (req : CollectReq) : Except CollectError (Nat × State) :=
  match validateQuery c g req.query with
  | some e => .error e
  | none =>
    match s.jobs.find? (fun p => decide (p.2.req = req)) with
    | some p => .ok (p.1, s)
    | none =>
      let bs := resolveBuckets c s req.query
      if s.jobs.any (fun p => p.2.buckets.any (fun b => decide (b ∈ bs))) then
        .error .batchOverlap
      else if badBatchRef s req.query then .error .batchOverlap
      else
        .ok (s.nextHandle,
             { s with jobs := s.jobs ++ [(s.nextHandle, ⟨req, bs, .pending⟩)],
                      nextHandle := s.nextHandle + 1 })

/-- Modelled from the spec (§4.4/§6): poll result: 202 while Pending, the
cached result when Ready. -/
inductive PollResult where
  | pending
  | ready (result : JobResult)
deriving DecidableEq

/-- Modelled from the spec (§4.4): `poll(job_handle)`: an unknown handle is
`unrecognizedCollectJob`; a Pending job answers Pending; a Complete job
serves its cached, immutable result. Polling mutates nothing. -/
def poll (s : State) (handle : Nat) : Except CollectError PollResult :=
  match s.jobs.find? (fun p => decide (p.1 = handle)) with
  | none => .error .unrecognizedCollectJob
  | some p =>
    match p.2.state with
    | .pending => .ok .pending
    | .complete result => .ok (.ready result)

/-- The cached result of the job under a handle, if it is Complete. -/
def jobResult (s : State) (handle : Nat) : Option JobResult :=
  match s.jobs.find? (fun p => decide (p.1 = handle)) with
  | none => none
  | some p =>
    match p.2.state with
    | .pending => none
    | .complete result => some result

/-- Modelled from the spec (§5): the discrete external triggers that mutate a
task's durable state (polls are read-only). -/
inductive Op where
  | upload (pathTaskId : List Nat) (r : Report)
  | process (lim : Limits)
  | collect (req : CollectReq)
deriving DecidableEq

/-- Apply one external trigger; a rejected operation leaves the state
unchanged (§7: operations are atomic, never half-applied). -/
def applyOp (env : UploadEnv) (c : TaskCfg) (g : GlobalCfg) (s : State) : Op → State
  | .upload pathTaskId r =>
    match upload env s pathTaskId r with
    | .ok s2 => s2
    | .error _ => s
  | .process lim => (process c lim s).1
  | .collect req =>
    match submitCollect c g s req with
    | .ok p => p.2
    | .error _ => s

/-- Apply a sequence of external triggers in order. -/
def applyOps (env : UploadEnv) (c : TaskCfg) (g : GlobalCfg)
    (ops : List Op) (s : State) : State :=
  ops.foldl (fun t op => applyOp env c g t op) s

/-! Concrete fixtures mirroring the e2e test setup: one registered
TimeInterval task and one registered FixedSize task, time precision 10
resp. 1, minimum batch size 2, expiration 1000, one known HPKE config id. -/

/-- Path id of the registered TimeInterval task. -/
def tidA : List Nat := [0]

/-- Configuration of the registered TimeInterval task. -/
def cfgA : TaskCfg := ⟨.timeInterval, 10, 2, 1000⟩

/-- Path id of the registered FixedSize task. -/
def tidF : List Nat := [1]

/-- Configuration of the registered FixedSize task. -/
def cfgF : TaskCfg := ⟨.fixedSize, 1, 2, 1000⟩

/-- Upload environment: both tasks registered, HPKE config id 5 known. -/
def envA : UploadEnv := ⟨[(tidA, cfgA), (tidF, cfgF)], [5]⟩

/-- Deployment configuration: maximum batch duration 100. -/
def gA : GlobalCfg := ⟨100⟩

/-- A report for the TimeInterval task (falls into bucket 2). -/
def rA : Report := ⟨1, 20, 5, []⟩

/-- A second report for the TimeInterval task (falls into bucket 3). -/
def rB : Report := ⟨2, 35, 5, []⟩

/-- A collect request covering buckets 2 and 3. -/
def reqA : CollectReq := ⟨.timeInterval 20 20, []⟩

/-- A byte-different collect request whose bucket set overlaps `reqA`. -/
def reqWide : CollectReq := ⟨.timeInterval 20 40, []⟩

/-- State after accepting `rA`. -/
def sAccepted : State := applyOp envA cfgA gA initState (.upload tidA rA)

/-- State after accepting `rA` and `rB`. -/
def sTwo : State := applyOps envA cfgA gA [.upload tidA rA, .upload tidA rB] initState

/-- State after fully draining `sTwo` (both reports aggregated). -/
def sDrained : State := applyOp envA cfgA gA sTwo (.process ⟨100, 100⟩)

/-- State after submitting the collect request `reqA` against `sDrained`. -/
def sJobbed : State := applyOp envA cfgA gA sDrained (.collect reqA)

/-- State after the processing invocation that completes the collection job. -/
def sComplete : State := applyOp envA cfgA gA sJobbed (.process ⟨100, 100⟩)

/-- A report timestamped exactly at the TimeInterval task's expiration. -/
def rBoundary : Report := ⟨4, 1000, 5, []⟩

/-- A report whose Leader share carries an unknown HPKE config id (6). -/
def rBadHpke : Report := ⟨3, 20, 6, []⟩

/-- A taskprov payload. -/
def p8 : List Nat := [1, 2, 3]

/-- The p8 payload corrupted in one byte. -/
def p8bad : List Nat := [1, 2, 4]

/-- A report embedding the `p8` taskprov payload. -/
def r8 : Report := ⟨7, 20, 5, [p8]⟩

/-- Reports for the FixedSize task. -/
def rF1 : Report := ⟨11, 0, 5, []⟩

/-- Second report for the FixedSize task. -/
def rF2 : Report := ⟨12, 0, 5, []⟩

/-- Third report for the FixedSize task (after the first collection). -/
def rF3 : Report := ⟨13, 0, 5, []⟩

/-- Fourth report for the FixedSize task (after the first collection). -/
def rF4 : Report := ⟨14, 0, 5, []⟩

/-- The collect request referencing fixed-size batch 0. -/
def reqF0 : CollectReq := ⟨.fixedSizeByBatchId 0, []⟩

/-- FixedSize end-to-end state: two reports filling batch 0, processed,
batch 0 collected via `reqF0`, then two more reports opening batch 1,
processed. Mirrors `e2e_fixed_size`. -/
def sFix : State :=
  applyOps envA cfgF gA
    [.upload tidF rF1, .upload tidF rF2, .process ⟨10, 10⟩, .collect reqF0,
     .process ⟨10, 10⟩, .upload tidF rF3, .upload tidF rF4, .process ⟨10, 10⟩]
    initState

deriving instance DecidableEq for Except

/-! Helper lemmas about the model's operations. -/

/-- Every accepting ingestion records the report id at the head of the
Report Ledger, in every bucket-assignment branch. -/
theorem ingest_ledger (c : TaskCfg) (s : State) (r : Report) :
    (ingest c s r).ledger = r.id :: s.ledger := by
  unfold ingest newBatchIngest
  split
  · rfl
  · split
    · split <;> rfl
    · rfl

/-- Ingestion never touches the collection-job table. -/
theorem ingest_jobs (c : TaskCfg) (s : State) (r : Report) :
    (ingest c s r).jobs = s.jobs := by
  unfold ingest newBatchIngest
  split
  · rfl
  · split
    · split <;> rfl
    · rfl

/-- Inversion of a successful upload: the task resolved, the report was not
stale, its HPKE config id was known, its id was fresh, and the new state is
the ingestion of the report. -/
theorem upload_ok_elim (env : UploadEnv) (s : State) (tid : List Nat)
    (r : Report) (s2 : State) (h : upload env s tid r = .ok s2) :
    ∃ c, resolveTask env tid r.extensions = .ok c
      ∧ r.time < c.expiration
      ∧ r.leaderHpkeId ∈ env.hpkeIds
      ∧ r.id ∉ s.ledger
      ∧ s2 = ingest c s r := by
  cases hres : resolveTask env tid r.extensions with
  | error e => simp only [upload, hres] at h; cases h
  | ok c =>
    simp only [upload, hres] at h
    by_cases hexp : c.expiration ≤ r.time
    · rw [if_pos hexp] at h; simp at h
    · rw [if_neg hexp] at h
      by_cases hh : r.leaderHpkeId ∈ env.hpkeIds
      · rw [if_pos hh] at h
        by_cases hl : r.id ∈ s.ledger
        · rw [if_pos hl] at h; simp at h
        · rw [if_neg hl] at h
          cases h
          exact ⟨c, rfl, by omega, hh, hl, rfl⟩
      · rw [if_neg hh] at h; simp at h

/-- Claim C1: a report id already accepted for a task is rejected on
re-submission: if an upload succeeds, uploading the byte-identical report
again against the resulting state fails with `reportRejected` (anti-replay
via the Report Ledger). -/
theorem c1_duplicate_report_rejected (env : UploadEnv) (s : State)
    (tid : List Nat) (r : Report) (s2 : State)
    (h : upload env s tid r = .ok s2) :
    upload env s2 tid r = .error .reportRejected := by
  obtain ⟨c, hres, hexp, hh, _, hs2⟩ := upload_ok_elim env s tid r s2 h
  subst hs2
  have hmem : r.id ∈ (ingest c s r).ledger := by
    rw [ingest_ledger]; exact List.mem_cons_self _ _
  simp only [upload, hres]
  rw [if_neg (by omega : ¬ c.expiration ≤ r.time), if_pos hh, if_pos hmem]

/-- Witness for C1: the first submission of `rA` succeeds and the second
fails with `reportRejected`. -/
theorem c1_duplicate_report_rejected_witness :
    upload envA initState tidA rA = .ok sAccepted
    ∧ upload envA sAccepted tidA rA = .error .reportRejected :=
  ⟨rfl, c1_duplicate_report_rejected envA initState tidA rA sAccepted rfl⟩

/-- Counterexample for C5 as stated: a report timestamped exactly at the
task's expiration does not exceed it, yet its submission fails with
`reportTooLate` (the staleness check is `expiration ≤ time`, as pinned by
`e2e_leader_upload`, not `expiration < time`). -/
theorem c5_counterexample :
    rBoundary.time ≤ cfgA.expiration
    ∧ upload envA initState tidA rBoundary = .error .reportTooLate :=
  ⟨by decide, rfl⟩

/-- Claim C5 (amended): for a resolvable task, submission fails with
`reportTooLate` exactly when the report timestamp is greater than or equal
to the task expiration; and staleness is never re-checked at aggregation
time — `process` is invariant under any change of the task's expiration. -/
theorem c5_staleness_at_ingestion_only (env : UploadEnv) (s : State)
    (tid : List Nat) (r : Report) (c : TaskCfg) (e2 : Nat) (lim : Limits)
    (t : State) (hres : resolveTask env tid r.extensions = .ok c) :
    (upload env s tid r = .error .reportTooLate ↔ c.expiration ≤ r.time)
    ∧ process { c with expiration := e2 } lim t = process c lim t := by
  constructor
  · constructor
    · intro h
      by_contra hexp
      simp only [upload, hres, if_neg hexp] at h
      by_cases hh : r.leaderHpkeId ∈ env.hpkeIds
      · rw [if_pos hh] at h
        by_cases hl : r.id ∈ s.ledger
        · rw [if_pos hl] at h; simp at h
        · rw [if_neg hl] at h; simp at h
      · rw [if_neg hh] at h; simp at h
    · intro hexp
      simp only [upload, hres, if_pos hexp]
  · rfl

/-- Witness for C5 (amended), at the fixture task: the staleness
characterisation for `rA` and the expiration-independence of `process`. -/
theorem c5_staleness_at_ingestion_only_witness :
    (upload envA initState tidA rA = .error .reportTooLate ↔ cfgA.expiration ≤ rA.time)
    ∧ process { cfgA with expiration := 7 } ⟨1, 1⟩ initState = process cfgA ⟨1, 1⟩ initState :=
  c5_staleness_at_ingestion_only envA initState tidA rA cfgA 7 ⟨1, 1⟩ initState rfl

/-- Claim C10: a report whose Leader share carries an HPKE config id unknown
to the Aggregator is rejected with the `reportRejected` code (an HTTP 400),
the same code as for a replayed report and distinct from
`unrecognizedMessage`. -/
theorem c10_unknown_hpke_config_rejected (env : UploadEnv) (s : State)
    (tid : List Nat) (r : Report) (c : TaskCfg)
    (hres : resolveTask env tid r.extensions = .ok c)
    (ht : r.time < c.expiration)
    (hh : r.leaderHpkeId ∉ env.hpkeIds) :
    upload env s tid r = .error .reportRejected
    ∧ uploadHttpStatus .reportRejected = 400
    ∧ uploadErrorCode .reportRejected = "reportRejected"
    ∧ uploadErrorCode .reportRejected ≠ uploadErrorCode .unrecognizedMessage := by
  refine ⟨?_, rfl, rfl, by decide⟩
  simp only [upload, hres]
  rw [if_neg (by omega : ¬ c.expiration ≤ r.time), if_neg hh]

/-- Witness for C10: uploading `rBadHpke` (config id 6, unknown) fails with
`reportRejected`. -/
theorem c10_unknown_hpke_config_rejected_witness :
    upload envA initState tidA rBadHpke = .error .reportRejected
    ∧ uploadHttpStatus .reportRejected = 400
    ∧ uploadErrorCode .reportRejected = "reportRejected"
    ∧ uploadErrorCode .reportRejected ≠ uploadErrorCode .unrecognizedMessage :=
  c10_unknown_hpke_config_rejected envA initState tidA rBadHpke cfgA rfl
    (by decide) (by decide)

/-- Claim C8: taskprov task-id derivation is deterministic and
content-binding — two payloads derive the same id exactly when they are
byte-identical — and a report uploaded under a path id that does not match
the id derived from its embedded payload fails with `unrecognizedTask`. -/
theorem c8_taskprov_id_binding (p1 p2 : List Nat) (env : UploadEnv)
    (s : State) (tid : List Nat) (r : Report)
    (hreg : env.registered.find? (fun q => decide (q.1 = tid)) = none)
    (hext : r.extensions = [p1])
    (hne : computeTaskId p1 ≠ tid) :
    (computeTaskId p1 = computeTaskId p2 ↔ p1 = p2)
    ∧ upload env s tid r = .error .unrecognizedTask := by
  refine ⟨Iff.rfl, ?_⟩
  have hres : resolveTask env tid r.extensions = .error .unrecognizedTask := by
    rw [hext]
    unfold resolveTask
    rw [hreg]
    show (if computeTaskId p1 = tid then Except.ok (taskprovConfig p1)
            else Except.error UploadError.unrecognizedTask)
          = Except.error UploadError.unrecognizedTask
    rw [if_neg hne]
  simp only [upload, hres]

/-- Witness for C8: deriving from `p8` twice is deterministic, the one-byte
corruption `p8bad` derives a different id, and uploading `r8` (embedding
`p8`) under the id derived from `p8bad` fails with `unrecognizedTask`. -/
theorem c8_taskprov_id_binding_witness :
    (computeTaskId p8 = computeTaskId p8bad ↔ p8 = p8bad)
    ∧ upload envA initState p8bad r8 = .error .unrecognizedTask :=
  c8_taskprov_id_binding p8 p8bad envA initState p8bad r8 (by decide) rfl (by decide)

/-- Claim C6: TimeInterval collect validation: a start or duration not
aligned to the task's time precision fails with `batchInvalid` against every
state (before any bucket is inspected); an aligned duration exceeding the
configured maximum batch duration fails with `batchInvalid`; an aligned
request whose duration equals the maximum batch duration is accepted
(when it duplicates or overlaps no prior job). -/
theorem c6_interval_validation (c : TaskCfg) (g : GlobalCfg) (s : State)
    (start dur : Nat) (ap : List Nat) :
    (¬ (start % c.timePrecision = 0 ∧ dur % c.timePrecision = 0) →
      submitCollect c g s ⟨.timeInterval start dur, ap⟩ = .error .batchInvalid)
    ∧ (start % c.timePrecision = 0 ∧ dur % c.timePrecision = 0 →
      g.maxBatchDuration < dur →
      submitCollect c g s ⟨.timeInterval start dur, ap⟩ = .error .batchInvalid)
    ∧ (start % c.timePrecision = 0 ∧ dur % c.timePrecision = 0 →
      dur = g.maxBatchDuration →
      (∀ p ∈ s.jobs, p.2.req ≠ (⟨.timeInterval start dur, ap⟩ : CollectReq)) →
      (∀ p ∈ s.jobs, ∀ b ∈ p.2.buckets,
        b ∉ resolveBuckets c s (.timeInterval start dur)) →
      submitCollect c g s ⟨.timeInterval start dur, ap⟩
        = .ok (s.nextHandle,
            { s with
              jobs := s.jobs ++ [(s.nextHandle,
                ⟨⟨.timeInterval start dur, ap⟩,
                 resolveBuckets c s (.timeInterval start dur), .pending⟩)],
              nextHandle := s.nextHandle + 1 })) := by
  refine ⟨?_, ?_, ?_⟩
  · intro hmis
    simp only [submitCollect, validateQuery, if_neg hmis]
  · intro hal hbig
    simp only [submitCollect, validateQuery, if_pos hal, if_pos hbig]
  · intro hal hdm hdiff hov
    have hval : validateQuery c g (.timeInterval start dur) = none := by
      simp only [validateQuery, if_pos hal]
      rw [if_neg (by omega : ¬ g.maxBatchDuration < dur)]
    have hfind : s.jobs.find? (fun p =>
        decide (p.2.req = (⟨.timeInterval start dur, ap⟩ : CollectReq))) = none := by
      apply List.find?_eq_none.mpr
      intro x hx
      simpa using hdiff x hx
    have hany : (s.jobs.any fun p => p.2.buckets.any fun b =>
        decide (b ∈ resolveBuckets c s (Query.timeInterval start dur))) = false := by
      rw [List.any_eq_false]
      intro p hp
      rw [Bool.not_eq_true, List.any_eq_false]
      intro b hb
      simpa using hov p hp b hb
    simp [submitCollect, hval, hfind, hany, badBatchRef]

/-- Witness for C6: against the empty state of the fixture task, a
misaligned start is `batchInvalid`, an over-long duration is `batchInvalid`,
and a request of exactly the maximum batch duration is accepted. -/
theorem c6_interval_validation_witness :
    submitCollect cfgA gA initState ⟨.timeInterval 21 20, []⟩ = .error .batchInvalid
    ∧ submitCollect cfgA gA initState ⟨.timeInterval 500 110, []⟩ = .error .batchInvalid
    ∧ submitCollect cfgA gA initState ⟨.timeInterval 500 100, []⟩
        = .ok (initState.nextHandle,
            { initState with
              jobs := initState.jobs ++ [(initState.nextHandle,
                ⟨⟨.timeInterval 500 100, []⟩,
                 resolveBuckets cfgA initState (.timeInterval 500 100), .pending⟩)],
              nextHandle := initState.nextHandle + 1 }) :=
  ⟨(c6_interval_validation cfgA gA initState 21 20 []).1 (by decide),
   (c6_interval_validation cfgA gA initState 500 110 []).2.1 (by decide) (by decide),
   (c6_interval_validation cfgA gA initState 500 100 []).2.2 (by decide) (by decide)
     (by decide) (by decide)⟩

/-- Claim C2: resubmitting a byte-identical collect request returns the
existing job handle with the state unchanged, and a later request whose
bytes differ from every submitted request but whose resolved bucket set
overlaps a prior job's buckets fails with `batchOverlap` (the first
submission to commit its reservation wins). -/
theorem c2_collect_dedup_and_overlap (c : TaskCfg) (g : GlobalCfg)
    (s s2 : State) (req req2 : CollectReq) (hdl : Nat)
    (h1 : submitCollect c g s req = .ok (hdl, s2))
    (hval : validateQuery c g req2.query = none)
    (hdiff : ∀ p ∈ s2.jobs, p.2.req ≠ req2)
    (hover : ∃ p ∈ s2.jobs, ∃ b ∈ resolveBuckets c s2 req2.query, b ∈ p.2.buckets) :
    submitCollect c g s2 req = .ok (hdl, s2)
    ∧ submitCollect c g s2 req2 = .error .batchOverlap := by
  constructor
  · cases hv : validateQuery c g req.query with
    | some e => simp only [submitCollect, hv] at h1; cases h1
    | none =>
      simp only [submitCollect, hv] at h1
      cases hf : s.jobs.find? (fun p => decide (p.2.req = req)) with
      | some p0 =>
        rw [hf] at h1
        cases h1
        simp only [submitCollect, hv, hf]
      | none =>
        rw [hf] at h1
        by_cases hovl : (s.jobs.any fun p => p.2.buckets.any fun b =>
            decide (b ∈ resolveBuckets c s req.query)) = true
        · rw [if_pos hovl] at h1; cases h1
        · rw [if_neg hovl] at h1
          by_cases hbad : badBatchRef s req.query = true
          · rw [if_pos hbad] at h1; cases h1
          · rw [if_neg hbad] at h1
            cases h1
            simp only [submitCollect, hv, List.find?_append, hf, Option.none_or]
            rw [List.find?_cons_of_pos _ (by simp)]
  · have hfind : s2.jobs.find? (fun p => decide (p.2.req = req2)) = none := by
      apply List.find?_eq_none.mpr
      intro x hx
      simpa using hdiff x hx
    have hany : (s2.jobs.any fun p => p.2.buckets.any fun b =>
        decide (b ∈ resolveBuckets c s2 req2.query)) = true := by
      rw [List.any_eq_true]
      obtain ⟨p, hp, b, hb, hbp⟩ := hover
      refine ⟨p, hp, ?_⟩
      rw [List.any_eq_true]
      exact ⟨b, hbp, by simpa using hb⟩
    simp [submitCollect, hval, hfind, hany]

/-- Witness for C2: resubmitting `reqA` against `sJobbed` returns handle 0
with the state unchanged, and the byte-different overlapping `reqWide`
fails with `batchOverlap`. -/
theorem c2_collect_dedup_and_overlap_witness :
    submitCollect cfgA gA sJobbed reqA = .ok (0, sJobbed)
    ∧ submitCollect cfgA gA sJobbed reqWide = .error .batchOverlap :=
  c2_collect_dedup_and_overlap cfgA gA sDrained sJobbed reqA reqWide 0
    (by decide) (by decide) (by decide) (by decide)

/-- Claim C7 (amended): once a fixed-size batch is collected,
`current_batch` returns an id different from it, and a collect request
referencing the collected batch id whose bytes differ from every previously
submitted request fails with `batchOverlap` (a byte-identical resubmission
instead returns the existing job unchanged). -/
theorem c7_collected_batch_rotation (c : TaskCfg) (g : GlobalCfg) (s : State)
    (bid : Nat) (bt : Batch) (ap : List Nat)
    (hfind : s.batches.find? (fun b => decide (b.id = bid)) = some bt)
    (hcol : bt.collected = true)
    (hnodup : (s.batches.map (fun b => b.id)).Nodup)
    (hlt : ∀ b ∈ s.batches, b.id < s.nextBatchId)
    (hdiff : ∀ p ∈ s.jobs, p.2.req ≠ (⟨.fixedSizeByBatchId bid, ap⟩ : CollectReq)) :
    currentBatch s ≠ bid
    ∧ submitCollect c g s ⟨.fixedSizeByBatchId bid, ap⟩ = .error .batchOverlap := by
  have hbtmem : bt ∈ s.batches := List.mem_of_find?_eq_some hfind
  have hbtid : bt.id = bid := by simpa using List.find?_some hfind
  constructor
  · unfold currentBatch
    cases hfc : s.batches.find? (fun b => decide (b.collected = false)) with
    | none =>
      show s.nextBatchId ≠ bid
      have := hlt bt hbtmem
      omega
    | some b2 =>
      show b2.id ≠ bid
      have hmem2 := List.mem_of_find?_eq_some hfc
      have hb2 : b2.collected = false := by simpa using List.find?_some hfc
      intro heq
      have hbb : b2 = bt :=
        List.inj_on_of_nodup_map hnodup hmem2 hbtmem (by rw [heq, hbtid])
      rw [hbb, hcol] at hb2
      cases hb2
  · have hfj : s.jobs.find? (fun p =>
        decide (p.2.req = (⟨.fixedSizeByBatchId bid, ap⟩ : CollectReq))) = none := by
      apply List.find?_eq_none.mpr
      intro x hx
      simpa using hdiff x hx
    have hbad : badBatchRef s (.fixedSizeByBatchId bid) = true := by
      show (match s.batches.find? (fun bt => decide (bt.id = bid)) with
            | some bt => bt.collected
            | none => true) = true
      rw [hfind]
      exact hcol
    cases hovl : (s.jobs.any fun p => p.2.buckets.any fun b =>
        decide (b ∈ resolveBuckets c s (Query.fixedSizeByBatchId bid))) with
    | true => simp [submitCollect, validateQuery, hfj, hovl]
    | false => simp [submitCollect, validateQuery, hfj, hovl, hbad]

/-- Witness for C7 (amended): in `sFix`, batch 0 is collected,
`current_batch` returns a different id, and a byte-fresh request for batch 0
fails with `batchOverlap`. -/
theorem c7_collected_batch_rotation_witness :
    currentBatch sFix ≠ 0
    ∧ submitCollect cfgF gA sFix ⟨.fixedSizeByBatchId 0, [7]⟩ = .error .batchOverlap :=
  c7_collected_batch_rotation cfgF gA sFix 0 ⟨0, 2, true⟩ [7]
    (by decide) rfl (by decide) (by decide) (by decide)

/-- Counterexample for C7 as stated: in `sFix` batch 0 has been collected,
yet a collect request referencing batch 0 that is byte-identical to the
original request does not fail with `batchOverlap` — the idempotent
resubmission exception returns the existing job's handle unchanged. -/
theorem c7_counterexample :
    (sFix.batches.find? (fun b => decide (b.id = 0))).map (fun b => b.collected)
        = some true
    ∧ submitCollect cfgF gA sFix reqF0 = .ok (0, sFix)
    ∧ submitCollect cfgF gA sFix reqF0 ≠ .error .batchOverlap :=
  ⟨rfl, rfl, by decide⟩

/-! Lemmas about the aggregation step. -/

/-- The aggregation step does nothing on an empty pending list. -/
theorem aggStep_nil (fuel maxR : Nat) : aggStep fuel maxR [] = ([], []) := by
  cases fuel <;> rfl

/-- The aggregation step never grows the pending list. -/
theorem aggStep_len_le (fuel maxR : Nat) (pnd : List PendingReport) :
    (aggStep fuel maxR pnd).2.length ≤ pnd.length := by
  induction fuel generalizing pnd with
  | zero => simp [aggStep]
  | succ f ih =>
    cases pnd with
    | nil => simp [aggStep]
    | cons r rs =>
      simp only [aggStep]
      exact le_trans (ih _) (List.length_filter_le _ _)

/-- With at least one job and one report per job allowed, the aggregation
step strictly drains a nonempty pending list (at least the oldest report is
taken). -/
theorem aggStep_progress (fuel maxR : Nat) (hf : 1 ≤ fuel) (hm : 1 ≤ maxR)
    (r : PendingReport) (rs : List PendingReport) :
    (aggStep fuel maxR (r :: rs)).2.length ≤ rs.length := by
  cases fuel with
  | zero => omega
  | succ f =>
    cases maxR with
    | zero => omega
    | succ m =>
      simp only [aggStep, List.take_succ_cons, List.filter_cons]
      rw [if_neg (by simp)]
      exact le_trans (aggStep_len_le _ _ _) (List.length_filter_le _ _)

/-- The pending reports after one `process` invocation are those the
aggregation step left behind. -/
theorem process_pending (c : TaskCfg) (lim : Limits) (s : State) :
    (process c lim s).1.pending
      = (aggStep lim.maxJobs lim.maxReports s.pending).2 := rfl

/-- Forward progress (§4.3): with limits of at least one job and one report
per job, iterating `process` as many times as there are pending reports
drains the task completely. -/
theorem processIter_drain (c : TaskCfg) (mj mr : Nat)
    (hmj : 1 ≤ mj) (hmr : 1 ≤ mr) :
    ∀ n s, s.pending.length ≤ n → (processIter c ⟨mj, mr⟩ n s).pending = [] := by
  intro n
  induction n with
  | zero =>
    intro s h
    have hnil : s.pending = [] := List.eq_nil_of_length_eq_zero (Nat.le_zero.mp h)
    simpa [processIter] using hnil
  | succ k ih =>
    intro s h
    show (processIter c ⟨mj, mr⟩ k (process c ⟨mj, mr⟩ s).1).pending = []
    apply ih
    cases hs : s.pending with
    | nil =>
      rw [process_pending, hs, aggStep_nil]
      simp
    | cons r rs =>
      rw [process_pending, hs]
      show (aggStep mj mr (r :: rs)).2.length ≤ k
      have h1 : (aggStep mj mr (r :: rs)).2.length ≤ rs.length :=
        aggStep_progress mj mr hmj hmr r rs
      have h2 : rs.length + 1 ≤ k + 1 := by rw [hs] at h; simpa using h
      omega

/-- Claim C9 (amended): whenever pending reports exist, `process` with
limits `{max_jobs := 1, max_reports := 1}` processes exactly one report,
and with any limits of at least one job and one report per job, all pending
reports drain within `pending` invocations. (The stated
`pending / (max_jobs * max_reports)` rounded-up bound fails when the pending
reports occupy more buckets than `max_jobs`; see the counterexample.) -/
theorem c9_min_rate_and_drain (c : TaskCfg) (mj mr : Nat) (s : State)
    (r : PendingReport) (rs : List PendingReport)
    (hmj : 1 ≤ mj) (hmr : 1 ≤ mr) (hs : s.pending = r :: rs) :
    (processIter c ⟨mj, mr⟩ s.pending.length s).pending = []
    ∧ (process c ⟨1, 1⟩ s).2.reports_processed = 1 := by
  constructor
  · exact processIter_drain c mj mr hmj hmr s.pending.length s le_rfl
  · have hlen : (process c ⟨1, 1⟩ s).2.reports_processed
        = (aggStep 1 1 s.pending).1.length := rfl
    rw [hlen, hs]
    rfl

/-- Witness for C9 (amended): the two pending reports of `sTwo` drain in two
invocations at the minimum rate, each invocation processing exactly one. -/
theorem c9_min_rate_and_drain_witness :
    (processIter cfgA ⟨1, 1⟩ sTwo.pending.length sTwo).pending = []
    ∧ (process cfgA ⟨1, 1⟩ sTwo).2.reports_processed = 1 :=
  c9_min_rate_and_drain cfgA 1 1 sTwo ⟨1, 20, 2⟩ [⟨2, 35, 3⟩]
    (by decide) (by decide) (by decide)

/-- Counterexample for C9 as stated: `sTwo` has 2 pending reports lying in 2
distinct buckets; with limits `{max_jobs := 1, max_reports_per_job := 2}`
the claimed bound of `⌈2 / (1 × 2)⌉ = 1` invocation does not drain them —
one invocation processes a single report (a job drains a single bucket) and
leaves the other pending. -/
theorem c9_counterexample :
    sTwo.pending.length = 2
    ∧ (processIter cfgA ⟨1, 2⟩ 1 sTwo).pending ≠ []
    ∧ (process cfgA ⟨1, 2⟩ sTwo).2.reports_processed = 1 :=
  ⟨rfl, by decide, rfl⟩

/-! Lemmas about the collection step. -/

/-- Running the collection step twice with the same pending and aggregated
sets is idempotent: the second run completes nothing. -/
theorem completeJobs_idem (m : Nat) (pnd agg : List PendingReport)
    (js : List (Nat × Job)) :
    completeJobs m pnd agg (completeJobs m pnd agg js).jobs
      = ⟨(completeJobs m pnd agg js).jobs, 0, []⟩ := by
  induction js with
  | nil => rfl
  | cons hd tl ih =>
    obtain ⟨h0, j0⟩ := hd
    cases hst : j0.state with
    | complete res => simp only [completeJobs, hst, ih]
    | pending =>
      by_cases hr : jobReady m pnd agg j0
      · simp only [completeJobs, hst, if_pos hr, ih]
      · simp only [completeJobs, hst, if_neg hr, ih]

/-- A state with no pending reports whose job table is already the output of
a collection step over its own aggregated set is a fixed point of `process`:
the invocation returns the state unchanged and all-zero telemetry. -/
theorem process_fixpoint (c : TaskCfg) (lim : Limits) (t : State)
    (js0 : List (Nat × Job))
    (hpend : t.pending = [])
    (hjobs : t.jobs = (completeJobs c.minBatchSize [] t.aggregated js0).jobs) :
    process c lim t = (t, ⟨0, 0, 0⟩) := by
  have hO : completeJobs c.minBatchSize [] t.aggregated t.jobs
      = ⟨t.jobs, 0, []⟩ := by
    rw [hjobs]
    exact completeJobs_idem _ _ _ _
  simp only [process, hpend, aggStep_nil, List.append_nil]
  rw [hO]
  simp only [List.not_mem_nil, if_false, List.map_id', List.length_nil]
  rw [← hpend]

/-- Claim C4 (amended): after an invocation of `process` has fully drained
the pending reports, re-invoking `process` on the resulting state — with no
report ingested and no collect request submitted in between — leaves the
state unchanged and returns telemetry `{0, 0, 0}`: no aggregated report is
ever reprocessed. -/
theorem c4_process_idempotent_after_drain (c : TaskCfg) (lim : Limits)
    (s : State) (hpend : (process c lim s).1.pending = []) :
    process c lim ((process c lim s).1) = ((process c lim s).1, ⟨0, 0, 0⟩) := by
  apply process_fixpoint c lim _ s.jobs hpend
  have h2 : (aggStep lim.maxJobs lim.maxReports s.pending).2 = [] := hpend
  rw [← h2]
  rfl

/-- Witness for C4 (amended): after draining `sTwo`, an immediate
re-invocation returns the state unchanged with zero telemetry. -/
theorem c4_process_idempotent_after_drain_witness :
    process cfgA ⟨100, 100⟩ ((process cfgA ⟨100, 100⟩ sTwo).1)
      = ((process cfgA ⟨100, 100⟩ sTwo).1, ⟨0, 0, 0⟩) :=
  c4_process_idempotent_after_drain cfgA ⟨100, 100⟩ sTwo (by decide)

/-- Counterexample for C4 as stated: a prior invocation fully drains all
pending reports (yielding `sDrained`); submitting the collect request `reqA`
in between ingests no report (ledger and pending unchanged), yet the next
`process` invocation returns `reports_collected = 2`, not `{0, 0, 0}` —
completing an eligible collection job is also reported in the telemetry. -/
theorem c4_counterexample :
    (process cfgA ⟨100, 100⟩ sTwo).1 = sDrained
    ∧ sDrained.pending = []
    ∧ sJobbed.ledger = sDrained.ledger
    ∧ sJobbed.pending = sDrained.pending
    ∧ (process cfgA ⟨100, 100⟩ sJobbed).2 = ⟨0, 0, 2⟩
    ∧ (⟨0, 0, 2⟩ : Telemetry) ≠ ⟨0, 0, 0⟩ :=
  ⟨rfl, by decide, by decide, by decide, by decide, by decide⟩

/-! Lemmas for the immutability of a Complete collection job's result. -/

/-- The collection step leaves a Complete job's table entry untouched. -/
theorem completeJobs_find_complete (m : Nat) (pnd agg : List PendingReport)
    (js : List (Nat × Job)) (hdl : Nat) (q : Nat × Job) (res : JobResult)
    (hf : js.find? (fun p => decide (p.1 = hdl)) = some q)
    (hq : q.2.state = .complete res) :
    (completeJobs m pnd agg js).jobs.find? (fun p => decide (p.1 = hdl)) = some q := by
  induction js with
  | nil => cases hf
  | cons hd tl ih =>
    obtain ⟨h0, j0⟩ := hd
    by_cases hh : h0 = hdl
    · have hpos : decide (((h0, j0) : Nat × Job).1 = hdl) = true := by simp [hh]
      have hc1 : ((h0, j0) :: tl).find? (fun p => decide (p.1 = hdl))
          = some (h0, j0) := List.find?_cons_of_pos _ hpos
      rw [hc1] at hf
      cases hf
      cases hst : j0.state with
      | pending => rw [hst] at hq; cases hq
      | complete r2 =>
        simp only [completeJobs, hst]
        exact List.find?_cons_of_pos _ hpos
    · have hneg : ¬ decide (((h0, j0) : Nat × Job).1 = hdl) = true := by simp [hh]
      have hc1 : ((h0, j0) :: tl).find? (fun p => decide (p.1 = hdl))
          = tl.find? (fun p => decide (p.1 = hdl)) := List.find?_cons_of_neg _ hneg
      rw [hc1] at hf
      have hrec := ih hf
      cases hst : j0.state with
      | complete r2 =>
        simp only [completeJobs, hst]
        exact Eq.trans (List.find?_cons_of_neg _ hneg) hrec
      | pending =>
        simp only [completeJobs, hst]
        by_cases hr : jobReady m pnd agg j0
        · rw [if_pos hr]
          exact Eq.trans (List.find?_cons_of_neg _ (by simp [hh])) hrec
        · rw [if_neg hr]
          exact Eq.trans (List.find?_cons_of_neg _ hneg) hrec

/-- Inversion of `jobResult`: a cached result comes from a Complete table
entry. -/
theorem jobResult_eq_some_elim (s : State) (hdl : Nat) (res : JobResult)
    (h : jobResult s hdl = some res) :
    ∃ q, s.jobs.find? (fun p => decide (p.1 = hdl)) = some q
      ∧ q.2.state = .complete res := by
  unfold jobResult at h
  cases hf : s.jobs.find? (fun p => decide (p.1 = hdl)) with
  | none => rw [hf] at h; cases h
  | some q =>
    rw [hf] at h
    replace h : (match q.2.state with
        | JobState.pending => none
        | JobState.complete result => some result) = some res := h
    cases hst : q.2.state with
    | pending =>
      rw [hst] at h
      have h2 : (none : Option JobResult) = some res := h
      cases h2
    | complete r2 =>
      rw [hst] at h
      have h2 : some r2 = some res := h
      cases h2
      exact ⟨q, rfl, hst⟩

/-- Introduction rule for `jobResult` from a Complete table entry. -/
theorem jobResult_eq_some_intro (s : State) (hdl : Nat) (q : Nat × Job)
    (res : JobResult)
    (hf : s.jobs.find? (fun p => decide (p.1 = hdl)) = some q)
    (hq : q.2.state = .complete res) :
    jobResult s hdl = some res := by
  unfold jobResult
  rw [hf]
  show (match q.2.state with
        | JobState.pending => none
        | JobState.complete result => some result) = some res
  rw [hq]

/-- A rejected or accepting upload leaves the collection-job table
unchanged. -/
theorem applyOp_upload_jobs (env : UploadEnv) (c : TaskCfg) (g : GlobalCfg)
    (s : State) (tid : List Nat) (r : Report) :
    (applyOp env c g s (.upload tid r)).jobs = s.jobs := by
  show (match upload env s tid r with
        | .ok s2 => s2
        | .error _ => s).jobs = s.jobs
  cases hu : upload env s tid r with
  | error e => rfl
  | ok s2 =>
    show s2.jobs = s.jobs
    obtain ⟨c2, _, _, _, _, hs2⟩ := upload_ok_elim env s tid r s2 hu
    rw [hs2, ingest_jobs]

/-- A successful collect submission either returns the state unchanged or
appends exactly one new job at the end of the table. -/
theorem submitCollect_jobs_extend (c : TaskCfg) (g : GlobalCfg) (s : State)
    (req : CollectReq) (hdl2 : Nat) (s2 : State)
    (h : submitCollect c g s req = .ok (hdl2, s2)) :
    s2.jobs = s.jobs ∨ ∃ x, s2.jobs = s.jobs ++ [x] := by
  cases hv : validateQuery c g req.query with
  | some e => simp only [submitCollect, hv] at h; cases h
  | none =>
    simp only [submitCollect, hv] at h
    cases hf : s.jobs.find? (fun p => decide (p.2.req = req)) with
    | some p0 =>
      rw [hf] at h
      cases h
      exact Or.inl rfl
    | none =>
      rw [hf] at h
      by_cases hovl : (s.jobs.any fun p => p.2.buckets.any fun b =>
          decide (b ∈ resolveBuckets c s req.query)) = true
      · rw [if_pos hovl] at h; cases h
      · rw [if_neg hovl] at h
        by_cases hbad : badBatchRef s req.query = true
        · rw [if_pos hbad] at h; cases h
        · rw [if_neg hbad] at h
          cases h
          exact Or.inr ⟨_, rfl⟩

/-- Every external trigger preserves a Complete job's table entry. -/
theorem find_complete_applyOp (env : UploadEnv) (c : TaskCfg) (g : GlobalCfg)
    (s : State) (op : Op) (hdl : Nat) (q : Nat × Job) (res : JobResult)
    (hf : s.jobs.find? (fun p => decide (p.1 = hdl)) = some q)
    (hq : q.2.state = .complete res) :
    (applyOp env c g s op).jobs.find? (fun p => decide (p.1 = hdl)) = some q := by
  cases op with
  | upload tid r =>
    rw [applyOp_upload_jobs]
    exact hf
  | process lim =>
    show ((process c lim s).1).jobs.find? (fun p => decide (p.1 = hdl)) = some q
    exact completeJobs_find_complete c.minBatchSize
      (aggStep lim.maxJobs lim.maxReports s.pending).2
      (s.aggregated ++ (aggStep lim.maxJobs lim.maxReports s.pending).1)
      s.jobs hdl q res hf hq
  | collect req =>
    show (match submitCollect c g s req with
          | .ok p => p.2
          | .error _ => s).jobs.find? (fun p => decide (p.1 = hdl)) = some q
    cases hsc : submitCollect c g s req with
    | error e => exact hf
    | ok pr =>
      show pr.2.jobs.find? (fun p => decide (p.1 = hdl)) = some q
      obtain ⟨pr1, pr2⟩ := pr
      rcases submitCollect_jobs_extend c g s req pr1 pr2 hsc with he | ⟨x, he⟩
      · rw [he]; exact hf
      · rw [he, List.find?_append, hf]; rfl

/-- A Complete job's cached result survives any sequence of external
triggers. -/
theorem jobResult_preserved (env : UploadEnv) (c : TaskCfg) (g : GlobalCfg)
    (hdl : Nat) (res : JobResult) :
    ∀ ops s, jobResult s hdl = some res →
      jobResult (applyOps env c g ops s) hdl = some res := by
  intro ops
  induction ops with
  | nil => intro s h; exact h
  | cons op tl ih =>
    intro s h
    show jobResult (applyOps env c g tl (applyOp env c g s op)) hdl = some res
    apply ih
    obtain ⟨q, hf, hst⟩ := jobResult_eq_some_elim s hdl res h
    exact jobResult_eq_some_intro _ hdl q res
      (find_complete_applyOp env c g s op hdl q res hf hst) hst

/-- Polling a job whose cached result is known serves that result. -/
theorem poll_of_jobResult (s : State) (hdl : Nat) (res : JobResult)
    (h : jobResult s hdl = some res) :
    poll s hdl = .ok (.ready res) := by
  obtain ⟨q, hf, hst⟩ := jobResult_eq_some_elim s hdl res h
  unfold poll
  rw [hf]
  show (match q.2.state with
        | JobState.pending => Except.ok PollResult.pending
        | JobState.complete result => Except.ok (PollResult.ready result))
      = Except.ok (PollResult.ready res)
  rw [hst]

/-- Claim C3: once a collection job is Complete, every poll — before and
after any sequence of further uploads, processing invocations and collect
submissions — serves the identical cached result: the Ready response is
computed once and immutable. -/
theorem c3_ready_result_immutable (env : UploadEnv) (c : TaskCfg)
    (g : GlobalCfg) (s : State) (hdl : Nat) (res : JobResult) (ops : List Op)
    (h : jobResult s hdl = some res) :
    poll s hdl = .ok (.ready res)
    ∧ jobResult (applyOps env c g ops s) hdl = some res
    ∧ poll (applyOps env c g ops s) hdl = .ok (.ready res) := by
  have hp := jobResult_preserved env c g hdl res ops s h
  exact ⟨poll_of_jobResult s hdl res h, hp, poll_of_jobResult _ hdl res hp⟩

/-- Witness for C3: the job completed in `sComplete` keeps serving its
cached result across a further upload, processing invocation and collect
submission. -/
theorem c3_ready_result_immutable_witness :
    poll sComplete 0 = .ok (.ready ⟨2, [2, 3]⟩)
    ∧ jobResult (applyOps envA cfgA gA
        [.upload tidA ⟨9, 45, 5, []⟩, .process ⟨3, 3⟩,
         .collect ⟨.timeInterval 500 100, []⟩] sComplete) 0 = some ⟨2, [2, 3]⟩
    ∧ poll (applyOps envA cfgA gA
        [.upload tidA ⟨9, 45, 5, []⟩, .process ⟨3, 3⟩,
         .collect ⟨.timeInterval 500 100, []⟩] sComplete) 0 = .ok (.ready ⟨2, [2, 3]⟩) :=
  c3_ready_result_immutable envA cfgA gA sComplete 0 ⟨2, [2, 3]⟩
    [.upload tidA ⟨9, 45, 5, []⟩, .process ⟨3, 3⟩,
     .collect ⟨.timeInterval 500 100, []⟩] (by decide)

end Daphne
